import Mathlib

/-!
Verification of the meshwar-map aggregation core against its specification.

The source under scrutiny is `src/functions/api/samples.js` together with the
code drafts embedded in `src/COVERAGE_LOGIC.md`.  JavaScript numbers are
modelled as rationals (all arithmetic performed by the encoder and the decay
logic is exact dyadic arithmetic well inside double precision), ISO-8601
timestamp strings are modelled as integers in milliseconds (lexicographic
order on well-formed ISO strings agrees with chronological order), and
absent / undefined fields are modelled with `Option`.
-/

namespace Meshwar

/-- JavaScript truthiness of an optional number: `undefined`, `null` and `0`
are falsy, every other number is truthy (`NaN` cannot arise in the rational
model; the spec makes NaN filtering the responsibility of the caller). -/
def truthyQ : Option ℚ → Bool
  | none => false
  | some x => !(x == 0)

/-- JavaScript truthiness of an optional string: `undefined`, `null` and the
empty string are falsy. -/
def truthyStr : Option String → Bool
  | none => false
  | some s => !(s == "")

/-- The JavaScript expression `a || b` on two optional numbers. -/
def jsOrQ (a b : Option ℚ) : Option ℚ :=
  if truthyQ a then a else b

/-- The JavaScript expression `a || null` on an optional number, as used by
`sample.rssi || null`: a zero value collapses to `null`. -/
def jsOrNullQ (a : Option ℚ) : Option ℚ :=
  if truthyQ a then a else none

/-! ## GeospatialBucketer: `encodeGeohash` (samples.js lines 7-46)

The encoder maintains the mutable loop state of the source verbatim: the
pending symbol `idx`, the bit counter `bit`, the axis flag `evenBit`, the
emitted symbols, and the four range bounds. -/

/-- Loop state of `encodeGeohash`. The emitted geohash is kept as a list of
characters; the JavaScript code appends one character at a time. -/
structure GeoState where
  idx : Nat
  bit : Nat
  evenBit : Bool
  geohash : List Char
  latMin : ℚ
  latMax : ℚ
  lonMin : ℚ
  lonMax : ℚ
  deriving Repr, DecidableEq

/-- The base-32 alphabet of the encoder. -/
def base32 : List Char := "0123456789bcdefghjkmnpqrstuvwxyz".data

/-- One iteration of the `while` loop of `encodeGeohash`: bisect the active
axis, record the half containing the point, flip the axis, and either advance
the bit counter or flush the completed 5-bit symbol. -/
def geoStep (lat lon : ℚ) (st : GeoState) : GeoState :=
  let st1 :=
    if st.evenBit then
      let lonMid := (st.lonMin + st.lonMax) / 2
      if lon > lonMid then
        { st with idx := st.idx ||| (1 <<< (4 - st.bit)), lonMin := lonMid }
      else
        { st with lonMax := lonMid }
    else
      let latMid := (st.latMin + st.latMax) / 2
      if lat > latMid then
        { st with idx := st.idx ||| (1 <<< (4 - st.bit)), latMin := latMid }
      else
        { st with latMax := latMid }
  let st2 := { st1 with evenBit := !st1.evenBit }
  if st2.bit < 4 then
    { st2 with bit := st2.bit + 1 }
  else
    { st2 with geohash := st2.geohash ++ [base32.getD st2.idx ' '], bit := 0, idx := 0 }

/-- The `while (geohash.length < precision)` loop, with enough fuel to run to
completion (each iteration performs one bisection; five bisections emit one
symbol). -/
def geoLoop (lat lon : ℚ) (precision : Nat) : Nat → GeoState → GeoState
  | 0, st => st
  | fuel + 1, st =>
    if st.geohash.length < precision then
      geoLoop lat lon precision fuel (geoStep lat lon st)
    else st

/-- Initial state of the encoder. -/
def initState : GeoState :=
  { idx := 0, bit := 0, evenBit := true, geohash := []
    latMin := -90, latMax := 90, lonMin := -180, lonMax := 180 }

/-- The function `encodeGeohash(lat, lon, precision)` from samples.js. -/
def encodeGeohash (lat lon : ℚ) (precision : Nat) : String :=
  String.mk (geoLoop lat lon precision (5 * precision) initState).geohash

/-- A `geoStep` either advances the bit counter keeping the emitted symbols,
or flushes: emits one more character and resets the counter. -/
theorem geoStep_bit_geohash (lat lon : ℚ) (st : GeoState) :
    (st.bit < 4 →
      (geoStep lat lon st).geohash = st.geohash ∧ (geoStep lat lon st).bit = st.bit + 1) ∧
    (¬ st.bit < 4 →
      (geoStep lat lon st).geohash.length = st.geohash.length + 1 ∧
        (geoStep lat lon st).bit = 0) := by
  unfold geoStep
  dsimp only
  split <;> split <;>
    first
    | (constructor
       · intro h
         simp [h]
       · intro h
         simp [h])

theorem geoLoop_length (lat lon : ℚ) (p : Nat) :
    ∀ fuel st, st.bit ≤ 4 → st.geohash.length ≤ p →
      5 * (p - st.geohash.length) - st.bit ≤ fuel →
      (geoLoop lat lon p fuel st).geohash.length = p := by
  intro fuel
  induction fuel with
  | zero =>
    intro st hbit hlen hfuel
    simp only [geoLoop]
    omega
  | succ f ih =>
    intro st hbit hlen hfuel
    simp only [geoLoop]
    split
    · rename_i hlt
      rcases Nat.lt_or_ge st.bit 4 with hb | hb
      · have hg := (geoStep_bit_geohash lat lon st).1 hb
        exact ih (geoStep lat lon st)
          (by omega) (by rw [hg.1]; omega) (by rw [hg.1, hg.2]; omega)
      · have hb4 : ¬ st.bit < 4 := by omega
        have hg := (geoStep_bit_geohash lat lon st).2 hb4
        exact ih (geoStep lat lon st)
          (by omega) (by omega) (by rw [hg.1, hg.2]; omega)
    · rename_i hge
      omega

/-! ## DecayModel: `ageInDays` and `applyDecay` (samples.js lines 81-108)

Timestamps are integers in milliseconds.  `ageInDays` is
`Math.floor((now - sampleDate) / 86400000)`, which on integer millisecond
values is floor division. -/

/-- The function `ageInDays(timestamp)` from samples.js, with the wall clock
made an explicit argument. -/
def ageInDays (now ts : ℤ) : ℤ :=
  (now - ts).fdiv 86400000

/-- The piecewise decay factor computed inside `applyDecay`, in the branch
order of the source. -/
def decayFactorOfAge (age : ℤ) : ℚ :=
  if age > 90 then 0.2
  else if age > 30 then 0.5
  else if age > 14 then 0.7
  else if age > 7 then 0.85
  else 1

/-- A per-source metadata record (`repeaters[nodeId]` in samples.js):
display name, signal data and the last-seen timestamp. -/
structure Repeater where
  name : String
  rssi : Option ℚ
  snr : Option ℚ
  lastSeen : ℤ
  deriving Repr, DecidableEq

/-- A persisted coverage cell as built by `aggregateSamples` in samples.js:
received / lost evidence mass, a raw sample counter, per-source metadata,
and the first / last timestamps. -/
structure AggCell where
  received : ℚ
  lost : ℚ
  samples : ℕ
  repeaters : List (String × Repeater)
  firstSeen : ℤ
  lastUpdate : ℤ
  deriving Repr, DecidableEq

/-- The function `applyDecay(cell)` from samples.js lines 89-108, with the
wall clock made an explicit argument: scale `received` and `lost` by the
age-based factor. -/
def applyDecay (now : ℤ) (cell : AggCell) : AggCell :=
  let decayFactor := decayFactorOfAge (ageInDays now cell.lastUpdate)
  { cell with received := cell.received * decayFactor, lost := cell.lost * decayFactor }

/-! ## ReliabilityClassifier -/

/-- The discrete reliability tiers of the classifier. -/
inductive Tier where
  | NoData
  | VeryReliable
  | UsuallyWorks
  | Spotty
  | RarelyWorks
  | DeadZone
  deriving Repr, DecidableEq

/-- Modelled from the spec: the ReliabilityClassifier (spec section 4.6) is
implemented only in the client applications (`index.html` getCoverageColor and
the Android aggregation service), which are not under src/; this definition
follows the spec contract and the threshold table of COVERAGE_LOGIC.md
(lines 11-18): `NoData` when there is no evidence, otherwise tiers by
`received / (received + lost)` with lower bounds 0.8 / 0.5 / 0.3 / 0.1. -/
def classify (received lost : ℚ) : Tier :=
  if received + lost = 0 then Tier.NoData
  else
    let rate := received / (received + lost)
    if rate ≥ 0.8 then Tier.VeryReliable
    else if rate ≥ 0.5 then Tier.UsuallyWorks
    else if rate ≥ 0.3 then Tier.Spotty
    else if rate ≥ 0.1 then Tier.RarelyWorks
    else Tier.DeadZone

/-! ## Destructive boundary: `onRequestDelete` (samples.js lines 267-297) -/

/-- A storage operation against the key-value backend. -/
inductive KVOp where
  | get (key : String)
  | put (key : String)
  | del (key : String)
  deriving Repr, DecidableEq

/-- Outcome of the DELETE handler: the HTTP status and the list of storage
operations performed, in order. -/
structure DeleteResult where
  status : ℕ
  ops : List KVOp
  deriving Repr, DecidableEq

/-- The handler `onRequestDelete` from samples.js: reject with 401 unless the
Authorization header is truthy and equal to `Bearer ` followed by the
configured admin token; only then delete the `coverage` key. -/
def onRequestDelete (authHeader : Option String) (adminToken : String) : DeleteResult :=
  if !truthyStr authHeader || !(authHeader == some ("Bearer " ++ adminToken)) then
    { status := 401, ops := [] }
  else
    { status := 200, ops := [KVOp.del "coverage"] }

/-! ## Probes and association-list helpers

JavaScript objects keyed by strings are modelled as association lists with
first-match lookup and replace-or-append update, matching property access and
property assignment. -/

/-- Object property lookup. -/
def alGet {α : Type} : List (String × α) → String → Option α
  | [], _ => none
  | (k', v) :: rest, k => if k' == k then some v else alGet rest k

/-- Object property assignment: replace the first matching key, or append. -/
def alSet {α : Type} : List (String × α) → String → α → List (String × α)
  | [], k, v => [(k, v)]
  | (k', v') :: rest, k, v =>
    if k' == k then (k, v) :: rest else (k', v') :: alSet rest k v

theorem alGet_alSet_self {α : Type} (l : List (String × α)) (k : String) (v : α) :
    alGet (alSet l k v) k = some v := by
  induction l with
  | nil => simp [alGet, alSet]
  | cons hd tl ih =>
    obtain ⟨k', v'⟩ := hd
    by_cases h : k' = k
    · simp [alGet, alSet, h]
    · simp [alGet, alSet, h, ih]

theorem alGet_alSet_ne {α : Type} (l : List (String × α)) (k k' : String) (v : α)
    (h : k' ≠ k) : alGet (alSet l k v) k' = alGet l k' := by
  induction l with
  | nil => simp [alGet, alSet, Ne.symm h]
  | cons hd tl ih =>
    obtain ⟨k₀, v₀⟩ := hd
    by_cases h0 : k₀ = k
    · subst h0
      simp [alGet, alSet, Ne.symm h]
    · simp only [alSet, beq_iff_eq, h0, if_false]
      by_cases h1 : k₀ = k'
      · simp [alGet, h1]
      · simp [alGet, h1, ih]

/-- The JavaScript object spread `{ ...a, ...b }`: every property of `b` is
assigned over `a`. -/
def spreadMerge {α : Type} (a b : List (String × α)) : List (String × α) :=
  b.foldl (fun acc p => alSet acc p.1 p.2) a

/-- An incoming probe (one element of `body.samples`).  Both coordinate field
spellings are kept because the source reads `sample.latitude || sample.lat`.
Timestamps are optional integers (`undefined` when the client sent none). -/
structure Sample where
  latitude : Option ℚ
  lat : Option ℚ
  longitude : Option ℚ
  lng : Option ℚ
  timestamp : Option ℤ
  pingSuccess : Option Bool
  nodeId : Option String
  repeaterName : Option String
  rssi : Option ℚ
  snr : Option ℚ
  deriving Repr, DecidableEq

/-- The aggregated coverage map built in memory by `aggregateSamples`. -/
def CovMap : Type := List (String × AggCell)

/-- The success test of samples.js line 137: `pingSuccess` strictly equal to
true, or a truthy `nodeId` differing from the sentinel string Unknown. -/
def successOf (s : Sample) : Bool :=
  (s.pingSuccess == some true) || (truthyStr s.nodeId && !(s.nodeId == some "Unknown"))

/-- The failure test of samples.js line 139: `pingSuccess` strictly equal to
false, or `nodeId` strictly equal to the sentinel string Unknown. -/
def failedOf (s : Sample) : Bool :=
  (s.pingSuccess == some false) || (s.nodeId == some "Unknown")

/-- The expression `new Date(sample.timestamp || now).getTime()` in the
integer model. -/
def sampleTime (s : Sample) (now : ℤ) : ℤ :=
  s.timestamp.getD now

/-- The zero-valued cell created when a bucket is first touched
(samples.js lines 122-130). -/
def initCell (s : Sample) (now : ℤ) : AggCell :=
  { received := 0, lost := 0, samples := 0, repeaters := []
    firstSeen := s.timestamp.getD now, lastUpdate := s.timestamp.getD now }

/-- The per-source record written by `aggregateSamples`
(samples.js lines 150-156): `sample.repeaterName || nodeId` as display name,
`sample.rssi || null`, `sample.snr || null`, and the probe timestamp. -/
def newRepeater (s : Sample) (now : ℤ) (nodeId : String) : Repeater :=
  { name := if truthyStr s.repeaterName then s.repeaterName.getD nodeId else nodeId
    rssi := jsOrNullQ s.rssi
    snr := jsOrNullQ s.snr
    lastSeen := s.timestamp.getD now }

/-- The body of the `forEach` in `aggregateSamples` applied to one cell:
count success / failure, update the per-source entry when strictly newer,
bump the raw sample counter, and keep the newest timestamp. -/
def updateCell (now : ℤ) (s : Sample) (cell0 : AggCell) : AggCell :=
  let cell1 :=
    if successOf s then
      let c := { cell0 with received := cell0.received + 1 }
      if truthyStr s.nodeId && !(s.nodeId == some "Unknown") then
        let nodeId := s.nodeId.getD ""
        let stime := sampleTime s now
        match alGet c.repeaters nodeId with
        | none =>
          { c with repeaters := alSet c.repeaters nodeId (newRepeater s now nodeId) }
        | some r =>
          if r.lastSeen < stime then
            { c with repeaters := alSet c.repeaters nodeId (newRepeater s now nodeId) }
          else c
      else c
    else if failedOf s then { cell0 with lost := cell0.lost + 1 }
    else cell0
  let cell2 := { cell1 with samples := cell1.samples + 1 }
  match s.timestamp with
  | some t => if t > cell2.lastUpdate then { cell2 with lastUpdate := t } else cell2
  | none => cell2

/-- One iteration of the `forEach` in `aggregateSamples`
(samples.js lines 115-166): drop the probe when either effective coordinate
is falsy, otherwise fold it into the cell of its geohash. -/
def aggStep (now : ℤ) (cov : CovMap) (s : Sample) : CovMap :=
  let latO := jsOrQ s.latitude s.lat
  let lngO := jsOrQ s.longitude s.lng
  if truthyQ latO && truthyQ lngO then
    let hash := encodeGeohash (latO.getD 0) (lngO.getD 0) 7
    alSet cov hash (updateCell now s ((alGet cov hash).getD (initCell s now)))
  else cov

/-- The function `aggregateSamples(samples)` from samples.js lines 112-170. -/
def aggregateSamples (now : ℤ) (samples : List Sample) : CovMap :=
  samples.foldl (aggStep now) []

/-- The `received` total recorded for a bucket (0 when the bucket is absent,
matching the zero-valued initial cell). -/
def recvAt (cov : CovMap) (k : String) : ℚ :=
  match alGet cov k with
  | some c => c.received
  | none => 0

/-- The `lost` total recorded for a bucket. -/
def lostAt (cov : CovMap) (k : String) : ℚ :=
  match alGet cov k with
  | some c => c.lost
  | none => 0

/-- The raw `samples` counter recorded for a bucket. -/
def samplesAt (cov : CovMap) (k : String) : ℕ :=
  match alGet cov k with
  | some c => c.samples
  | none => 0

/-- The per-source record stored for source `nid` in bucket `k`. -/
def repAt (cov : CovMap) (k nid : String) : Option Repeater :=
  match alGet cov k with
  | some c => alGet c.repeaters nid
  | none => none

/-! ## The merge strategies present in the repository

The repository carries several drafts of the POST merge:
* samples.js lines 229-243 ("single coverage key"): replace the persisted
  cell wholesale when the incoming delta is newer, else drop the delta;
* samples.js lines 537-549 ("atomic update mode"): one key per cell, add the
  delta counts onto the persisted counts, no decay;
* COVERAGE_LOGIC.md lines 135-160 ("ratio-scaled dedup"): one key per cell,
  filter the batch dedup keys against the persisted seen-id list, scale the
  delta by the surviving fraction, keep the newest 150 seen ids;
* COVERAGE_LOGIC.md lines 649-663 ("merge with decay"): decay the persisted
  counts by cell age, then add the delta counts at full weight. -/

/-- The merge of samples.js lines 229-243: `existingCoverage[hash]` is
replaced by the fresh cell when `newCell.lastUpdate > existing.lastUpdate`,
otherwise kept unchanged; an absent bucket takes the fresh cell. -/
def mergeCellA (existing : Option AggCell) (newCell : AggCell) : AggCell :=
  match existing with
  | none => newCell
  | some e => if e.lastUpdate < newCell.lastUpdate then newCell else e

/-- Per-source record of the atomic-update and ratio-dedup drafts:
`{ name, rssi, lastSeen }` with `lastSeen` taken verbatim from the probe
timestamp (possibly undefined). -/
structure RepInfo where
  name : String
  rssi : Option ℚ
  lastSeen : Option ℤ
  deriving Repr, DecidableEq

/-- A cell of the atomic-update draft (samples.js lines 521-549); the fresh
default object carries no `lastUpdate` property. -/
structure BCell where
  received : ℚ
  lost : ℚ
  lastUpdate : Option ℤ
  repeaters : List (String × RepInfo)
  deriving Repr, DecidableEq

/-- The merge of samples.js lines 537-549: add the delta counts onto the
persisted counts (no decay is ever applied), overwrite `lastUpdate`
unconditionally, and spread the delta sources over the stored ones. -/
def mergeCellAtomic (existing : Option BCell) (newData : BCell) : BCell :=
  let e := existing.getD { received := 0, lost := 0, lastUpdate := none, repeaters := [] }
  { received := e.received + newData.received
    lost := e.lost + newData.lost
    lastUpdate := newData.lastUpdate
    repeaters := spreadMerge e.repeaters newData.repeaters }

/-- The received / lost totals produced by the merge of COVERAGE_LOGIC.md
lines 649-663: decay the persisted cell by its own age, then add the delta
counts at full weight.  Only the two counters are modelled; the per-source
and timestamp bookkeeping of that draft is irrelevant to the totals. -/
def mergeCountsDecay (now : ℤ) (existing newCell : AggCell) : ℚ × ℚ :=
  let e := applyDecay now existing
  (e.received + newCell.received, e.lost + newCell.lost)

/-- The function `Math.round` on a rational: round half toward positive
infinity. -/
def jsRound (q : ℚ) : ℤ := ⌊q + 1 / 2⌋

/-- The string comparison `newData.lastUpdate > (existing.lastUpdate || "")`
on optional ISO timestamps: an undefined left side compares false, a defined
left side exceeds the empty-string fallback of an undefined right side. -/
def tsGt (a b : Option ℤ) : Bool :=
  match a, b with
  | some x, some y => x > y
  | some _, none => true
  | none, _ => false

/-- A persisted cell of the ratio-dedup draft (COVERAGE_LOGIC.md
lines 135-160), carrying the bounded list of seen dedup keys. -/
structure DCell where
  received : ℤ
  lost : ℤ
  lastUpdate : Option ℤ
  repeaters : List (String × RepInfo)
  seenIds : List String
  deriving Repr, DecidableEq

/-- A per-bucket batch delta of the ratio-dedup draft: counts, newest
timestamp, per-source records, and the set of dedup keys of the batch
(the builder adds each id at most once, so the list is duplicate-free). -/
structure DDelta where
  received : ℤ
  lost : ℤ
  lastUpdate : Option ℤ
  repeaters : List (String × RepInfo)
  ids : List String
  deriving Repr, DecidableEq

/-- The merge of COVERAGE_LOGIC.md lines 139-158: keep only dedup keys not
already in the persisted seen list; when none survive, leave the persisted
cell untouched; otherwise add the delta counts scaled by the surviving
fraction (rounded), advance the timestamp when newer, spread the sources,
and prepend the new keys to the seen list truncated to 150 entries. -/
def mergeCellDedup (existing : DCell) (newData : DDelta) : DCell :=
  if (newData.ids.filter (fun i => !(existing.seenIds.contains i))).length = 0 then existing
  else
    { received := existing.received + jsRound ((newData.received : ℚ) *
        (((newData.ids.filter (fun i => !(existing.seenIds.contains i))).length : ℚ) /
          (newData.ids.length : ℚ)))
      lost := existing.lost + jsRound ((newData.lost : ℚ) *
        (((newData.ids.filter (fun i => !(existing.seenIds.contains i))).length : ℚ) /
          (newData.ids.length : ℚ)))
      lastUpdate :=
        if tsGt newData.lastUpdate existing.lastUpdate then newData.lastUpdate
        else existing.lastUpdate
      repeaters := spreadMerge existing.repeaters newData.repeaters
      seenIds := ((newData.ids.filter (fun i => !(existing.seenIds.contains i))) ++
        existing.seenIds).take 150 }

/-! ## Claim theorems -/

/-- Claim C10: for all coordinates and every precision, `encodeGeohash`
returns a string of length exactly the precision, and identical inputs yield
the identical string (the encoder is a pure function of its arguments). -/
theorem c10_bucket_length_deterministic (lat lon lat₂ lon₂ : ℚ) (p : ℕ)
    (h1 : lat = lat₂) (h2 : lon = lon₂) :
    (encodeGeohash lat lon p).length = p ∧
      encodeGeohash lat lon p = encodeGeohash lat₂ lon₂ p := by
  subst h1
  subst h2
  refine ⟨?_, rfl⟩
  have h := geoLoop_length lat lon p (5 * p) initState
    (by simp [initState]) (by simp [initState]) (by simp [initState])
  simpa [encodeGeohash, String.length] using h

theorem c10_witness :
    (encodeGeohash 0 0 7).length = 7 ∧ encodeGeohash 0 0 7 = encodeGeohash 0 0 7 :=
  c10_bucket_length_deterministic 0 0 0 0 7 rfl rfl

/-- Claim C6 counterexample: longitude 0 lies exactly on the first bisection
midpoint of [-180, 180], and the encoder assigns it to the LOWER half: the
longitude range after the first step is [-180, 0] (an upper-half assignment
would make the new lower bound 0) and the bit stays unset, so the precision-1
geohash of (0, 0) is "7" rather than the "s" that upper-half assignment at
every midpoint would produce. -/
theorem c6_counterexample :
    (geoStep 0 0 initState).lonMax = 0 ∧ (geoStep 0 0 initState).lonMin = -180 ∧
      (geoStep 0 0 initState).lonMin ≠ 0 ∧ (geoStep 0 0 initState).idx = 0 ∧
      encodeGeohash 0 0 1 = "7" := by
  refine ⟨by norm_num [geoStep, initState], by norm_num [geoStep, initState],
    by norm_num [geoStep, initState], by norm_num [geoStep, initState], ?_⟩
  norm_num [encodeGeohash, geoLoop, geoStep, initState]
  decide

/-- Claim C6 (amended): at every bisection step, a coordinate lying exactly
on the midpoint of the active range is assigned to the lower half (the
not-greater-than branch): the upper bound of the range shrinks to the
midpoint, the lower bound is unchanged, and the bit is left unset — on both
the longitude and latitude axes. -/
theorem c6_midpoint_lower_half (st : GeoState) (lat lon : ℚ) :
    (st.evenBit = true → lon = (st.lonMin + st.lonMax) / 2 →
      (geoStep lat lon st).lonMax = (st.lonMin + st.lonMax) / 2 ∧
        (geoStep lat lon st).lonMin = st.lonMin ∧
        (st.bit < 4 → (geoStep lat lon st).idx = st.idx)) ∧
    (st.evenBit = false → lat = (st.latMin + st.latMax) / 2 →
      (geoStep lat lon st).latMax = (st.latMin + st.latMax) / 2 ∧
        (geoStep lat lon st).latMin = st.latMin ∧
        (st.bit < 4 → (geoStep lat lon st).idx = st.idx)) := by
  constructor
  · intro hE hmid
    simp only [geoStep, hE, if_true, hmid, lt_irrefl, if_false]
    split <;> simp_all
  · intro hE hmid
    simp only [geoStep, hE, Bool.false_eq_true, if_false, hmid, lt_irrefl]
    split <;> simp_all

theorem c6_witness :
    ((geoStep 0 0 initState).lonMax = (initState.lonMin + initState.lonMax) / 2 ∧
      (geoStep 0 0 initState).lonMin = initState.lonMin ∧
      (initState.bit < 4 → (geoStep 0 0 initState).idx = initState.idx)) ∧
    ((geoStep 0 0 { initState with evenBit := false }).latMax =
        (initState.latMin + initState.latMax) / 2 ∧
      (geoStep 0 0 { initState with evenBit := false }).latMin = initState.latMin ∧
      ({ initState with evenBit := false }.bit < 4 →
        (geoStep 0 0 { initState with evenBit := false }).idx = initState.idx)) :=
  ⟨(c6_midpoint_lower_half initState 0 0).1 rfl (by norm_num [initState]),
   (c6_midpoint_lower_half { initState with evenBit := false } 0 0).2 rfl
     (by norm_num [initState])⟩

/-- Claim C4: the decay factor is the piecewise constant of the age in whole
days — 1.0 up to 7 days, 0.85 up to 14, 0.7 up to 30, 0.5 up to 90, 0.2
beyond — and `applyDecay` scales both the received and the lost totals of the
cell by that factor. -/
theorem c4_decay_piecewise (now ts : ℤ) (cell : AggCell) :
    decayFactorOfAge (ageInDays now ts) =
      (if ageInDays now ts ≤ 7 then 1
       else if ageInDays now ts ≤ 14 then 0.85
       else if ageInDays now ts ≤ 30 then 0.7
       else if ageInDays now ts ≤ 90 then 0.5
       else 0.2) ∧
    (applyDecay now cell).received =
      cell.received * decayFactorOfAge (ageInDays now cell.lastUpdate) ∧
    (applyDecay now cell).lost =
      cell.lost * decayFactorOfAge (ageInDays now cell.lastUpdate) := by
  refine ⟨?_, rfl, rfl⟩
  unfold decayFactorOfAge
  split_ifs <;> first | rfl | omega

/-- Claim C3: the classifier returns `NoData` exactly when there is no
evidence, and otherwise maps the success rate to the tier of its half-open
interval — [0.8, 1] VeryReliable, [0.5, 0.8) UsuallyWorks, [0.3, 0.5) Spotty,
[0.1, 0.3) RarelyWorks, [0, 0.1) DeadZone; in particular classify 8 2 is
VeryReliable, classify 79 21 is UsuallyWorks, classify 0 0 is NoData. -/
theorem c3_classifier (r l : ℚ) (hr : 0 ≤ r) (hl : 0 ≤ l) :
    (classify r l = Tier.NoData ↔ r + l = 0) ∧
    (r + l ≠ 0 →
      ((classify r l = Tier.VeryReliable ↔ 0.8 ≤ r / (r + l) ∧ r / (r + l) ≤ 1) ∧
       (classify r l = Tier.UsuallyWorks ↔ 0.5 ≤ r / (r + l) ∧ r / (r + l) < 0.8) ∧
       (classify r l = Tier.Spotty ↔ 0.3 ≤ r / (r + l) ∧ r / (r + l) < 0.5) ∧
       (classify r l = Tier.RarelyWorks ↔ 0.1 ≤ r / (r + l) ∧ r / (r + l) < 0.3) ∧
       (classify r l = Tier.DeadZone ↔ 0 ≤ r / (r + l) ∧ r / (r + l) < 0.1))) ∧
    classify 8 2 = Tier.VeryReliable ∧ classify 79 21 = Tier.UsuallyWorks ∧
      classify 0 0 = Tier.NoData := by
  refine ⟨?_, ?_, by norm_num [classify], by norm_num [classify], by norm_num [classify]⟩
  · by_cases h0 : r + l = 0
    · simp [classify, h0]
    · simp only [classify, h0, if_false]
      split_ifs <;> simp [h0]
  · intro h0
    have hpos : 0 < r + l := lt_of_le_of_ne (add_nonneg hr hl) (Ne.symm h0)
    have hle1 : r / (r + l) ≤ 1 := by
      rw [div_le_one hpos]
      linarith
    have hge0 : 0 ≤ r / (r + l) := div_nonneg hr (le_of_lt hpos)
    simp only [classify, h0, if_false]
    set x := r / (r + l) with hx
    split_ifs with h1 h2 h3 h4
    · exact ⟨iff_of_true rfl ⟨h1, hle1⟩,
        iff_of_false (by simp) (fun hc => absurd h1 (by linarith [hc.2])),
        iff_of_false (by simp) (fun hc => absurd h1 (by linarith [hc.2])),
        iff_of_false (by simp) (fun hc => absurd h1 (by linarith [hc.2])),
        iff_of_false (by simp) (fun hc => absurd h1 (by linarith [hc.2]))⟩
    · exact ⟨iff_of_false (by simp) (fun hc => absurd hc.1 h1),
        iff_of_true rfl ⟨h2, not_le.mp h1⟩,
        iff_of_false (by simp) (fun hc => absurd h2 (by linarith [hc.2])),
        iff_of_false (by simp) (fun hc => absurd h2 (by linarith [hc.2])),
        iff_of_false (by simp) (fun hc => absurd h2 (by linarith [hc.2]))⟩
    · exact ⟨iff_of_false (by simp) (fun hc => absurd hc.1 (by linarith [not_le.mp h1])),
        iff_of_false (by simp) (fun hc => absurd hc.1 h2),
        iff_of_true rfl ⟨h3, not_le.mp h2⟩,
        iff_of_false (by simp) (fun hc => absurd h3 (by linarith [hc.2])),
        iff_of_false (by simp) (fun hc => absurd h3 (by linarith [hc.2]))⟩
    · exact ⟨iff_of_false (by simp) (fun hc => absurd hc.1 (by linarith [not_le.mp h1])),
        iff_of_false (by simp) (fun hc => absurd hc.1 (by linarith [not_le.mp h2])),
        iff_of_false (by simp) (fun hc => absurd hc.1 h3),
        iff_of_true rfl ⟨h4, not_le.mp h3⟩,
        iff_of_false (by simp) (fun hc => absurd h4 (by linarith [hc.2]))⟩
    · exact ⟨iff_of_false (by simp) (fun hc => absurd hc.1 (by linarith [not_le.mp h1])),
        iff_of_false (by simp) (fun hc => absurd hc.1 (by linarith [not_le.mp h2])),
        iff_of_false (by simp) (fun hc => absurd hc.1 (by linarith [not_le.mp h3])),
        iff_of_false (by simp) (fun hc => absurd hc.1 h4),
        iff_of_true rfl ⟨hge0, not_le.mp h4⟩⟩

theorem c3_witness :
    classify 8 2 = Tier.VeryReliable ∧ classify 79 21 = Tier.UsuallyWorks ∧
      classify 0 0 = Tier.NoData :=
  ⟨(c3_classifier 8 2 (by norm_num) (by norm_num)).2.2.1,
   (c3_classifier 79 21 (by norm_num) (by norm_num)).2.2.2.1,
   (c3_classifier 0 0 (by norm_num) (by norm_num)).2.2.2.2⟩

/-- Claim C9: a DELETE request whose Authorization header is missing or
differs from `Bearer ` followed by the configured admin token is answered
with status 401 and performs no storage operation at all. -/
theorem c9_unauthorized_delete (authHeader : Option String) (adminToken : String)
    (h : authHeader = none ∨ ∀ s, authHeader = some s → s ≠ "Bearer " ++ adminToken) :
    (onRequestDelete authHeader adminToken).status = 401 ∧
      (onRequestDelete authHeader adminToken).ops = [] := by
  have hne : (authHeader == some ("Bearer " ++ adminToken)) = false := by
    cases h with
    | inl h => subst h; rfl
    | inr h =>
      cases authHeader with
      | none => rfl
      | some s => simpa using h s rfl
  simp [onRequestDelete, hne]

theorem c9_witness :
    (onRequestDelete none "secret").status = 401 ∧
      (onRequestDelete none "secret").ops = [] :=
  c9_unauthorized_delete none "secret" (Or.inl rfl)

/-! ## Behaviour of the per-sample aggregation step -/

theorem updateCell_fields (now : ℤ) (s : Sample) (c : AggCell) :
    (updateCell now s c).received = c.received + (if successOf s then 1 else 0) ∧
    (updateCell now s c).lost = c.lost + (if !successOf s && failedOf s then 1 else 0) ∧
    (updateCell now s c).samples = c.samples + 1 := by
  unfold updateCell
  by_cases hs : successOf s <;> by_cases hf : failedOf s <;>
    simp only [hs, hf, if_true, if_false, Bool.not_true, Bool.not_false,
      Bool.false_and, Bool.true_and] <;>
    rcases s.timestamp with _ | t <;>
    (repeat' split) <;> simp_all

theorem updateCell_repeaters_eq (now : ℤ) (s : Sample) (c : AggCell) :
    (updateCell now s c).repeaters =
      (if successOf s = true ∧ (truthyStr s.nodeId && !(s.nodeId == some "Unknown")) = true then
        (match alGet c.repeaters (s.nodeId.getD "") with
         | none => alSet c.repeaters (s.nodeId.getD "") (newRepeater s now (s.nodeId.getD ""))
         | some r =>
           if r.lastSeen < sampleTime s now then
             alSet c.repeaters (s.nodeId.getD "") (newRepeater s now (s.nodeId.getD ""))
           else c.repeaters)
       else c.repeaters) := by
  unfold updateCell
  (repeat' split) <;> simp_all [apply_ite AggCell.repeaters]

theorem updateCell_rep_preserve (now : ℤ) (s : Sample) (c : AggCell) (nid : String)
    (r : Repeater) (hr : alGet c.repeaters nid = some r)
    (ht : sampleTime s now ≤ r.lastSeen) :
    alGet (updateCell now s c).repeaters nid = some r := by
  rw [updateCell_repeaters_eq]
  split
  case isFalse => exact hr
  case isTrue =>
    by_cases heq : s.nodeId.getD "" = nid
    · rw [heq, hr]
      simp only [not_lt.mpr ht, if_false]
      exact hr
    · cases halg : alGet c.repeaters (s.nodeId.getD "") with
      | none =>
        rw [alGet_alSet_ne _ _ _ _ (fun h => heq h.symm)]
        exact hr
      | some r' =>
        dsimp only
        split
        · rw [alGet_alSet_ne _ _ _ _ (fun h => heq h.symm)]
          exact hr
        · exact hr

theorem updateCell_rep_other (now : ℤ) (s : Sample) (c : AggCell) (nid : String)
    (hnid : s.nodeId ≠ some nid) :
    alGet (updateCell now s c).repeaters nid = alGet c.repeaters nid := by
  rw [updateCell_repeaters_eq]
  split
  case isFalse => rfl
  case isTrue hcond =>
    obtain ⟨-, hguard⟩ := hcond
    rw [Bool.and_eq_true] at hguard
    obtain ⟨htr, -⟩ := hguard
    have hex : ∃ str, s.nodeId = some str := by
      cases h : s.nodeId with
      | none => rw [h] at htr; exact absurd htr (by simp [truthyStr])
      | some str => exact ⟨str, rfl⟩
    obtain ⟨str, hstr⟩ := hex
    have hgd : s.nodeId.getD "" = str := by rw [hstr]; rfl
    have hneq : str ≠ nid := fun h => hnid (by rw [hstr, h])
    rw [hgd]
    cases halg : alGet c.repeaters str with
    | none => exact alGet_alSet_ne _ _ _ _ (fun h => hneq h.symm)
    | some r' =>
      dsimp only
      split
      · exact alGet_alSet_ne _ _ _ _ (fun h => hneq h.symm)
      · rfl

theorem updateCell_rep_overwrite (now : ℤ) (s : Sample) (c : AggCell) (nid : String)
    (r : Repeater) (hnode : s.nodeId = some nid) (hne : nid ≠ "") (hunk : nid ≠ "Unknown")
    (hr : alGet c.repeaters nid = some r) (ht : r.lastSeen < sampleTime s now) :
    alGet (updateCell now s c).repeaters nid = some (newRepeater s now nid) := by
  rw [updateCell_repeaters_eq]
  have htr : truthyStr (some nid) = true := by
    simpa [truthyStr] using hne
  have hsucc : successOf s = true := by
    simp [successOf, hnode, htr, hunk]
  have hgd : s.nodeId.getD "" = nid := by rw [hnode]; rfl
  rw [if_pos ⟨hsucc, by simp [hnode, htr, hunk]⟩, hgd, hr]
  simp only [ht, if_true]
  exact alGet_alSet_self _ _ _

theorem successOf_iff (s : Sample) :
    successOf s = true ↔
      (s.pingSuccess = some true ∨ (truthyStr s.nodeId = true ∧ s.nodeId ≠ some "Unknown")) := by
  simp [successOf]

theorem failedOf_iff (s : Sample) :
    failedOf s = true ↔ (s.pingSuccess = some false ∨ s.nodeId = some "Unknown") := by
  simp [failedOf]

theorem getD_received (cov : CovMap) (k : String) (s : Sample) (now : ℤ) :
    ((alGet cov k).getD (initCell s now)).received = recvAt cov k := by
  cases h : alGet cov k <;> simp [recvAt, h, initCell]

theorem getD_lost (cov : CovMap) (k : String) (s : Sample) (now : ℤ) :
    ((alGet cov k).getD (initCell s now)).lost = lostAt cov k := by
  cases h : alGet cov k <;> simp [lostAt, h, initCell]

theorem getD_samples (cov : CovMap) (k : String) (s : Sample) (now : ℤ) :
    ((alGet cov k).getD (initCell s now)).samples = samplesAt cov k := by
  cases h : alGet cov k <;> simp [samplesAt, h, initCell]

theorem aggStep_eq_of_truthy (now : ℤ) (cov : CovMap) (s : Sample)
    (hla : truthyQ (jsOrQ s.latitude s.lat) = true)
    (hlo : truthyQ (jsOrQ s.longitude s.lng) = true) :
    aggStep now cov s =
      alSet cov (encodeGeohash ((jsOrQ s.latitude s.lat).getD 0) ((jsOrQ s.longitude s.lng).getD 0) 7)
        (updateCell now s
          ((alGet cov (encodeGeohash ((jsOrQ s.latitude s.lat).getD 0)
              ((jsOrQ s.longitude s.lng).getD 0) 7)).getD (initCell s now))) := by
  simp [aggStep, hla, hlo]


theorem recvAt_alSet_self (cov : CovMap) (k : String) (c : AggCell) :
    recvAt (alSet cov k c) k = c.received := by
  simp [recvAt, alGet_alSet_self]

theorem lostAt_alSet_self (cov : CovMap) (k : String) (c : AggCell) :
    lostAt (alSet cov k c) k = c.lost := by
  simp [lostAt, alGet_alSet_self]

theorem samplesAt_alSet_self (cov : CovMap) (k : String) (c : AggCell) :
    samplesAt (alSet cov k c) k = c.samples := by
  simp [samplesAt, alGet_alSet_self]

/-- Claim C5: under the samples-tracking aggregator, a probe with usable
coordinates is counted as received exactly when `pingSuccess` is explicitly
true or a truthy source id other than the sentinel Unknown is present; it is
counted as lost exactly when it is not a success and either `pingSuccess` is
explicitly false or the source id equals Unknown; an indeterminate probe
increments neither counter but always increments the raw `samples` counter. -/
theorem c5_success_failure_counting (now : ℤ) (cov : CovMap) (s : Sample) (k : String)
    (hla : truthyQ (jsOrQ s.latitude s.lat) = true)
    (hlo : truthyQ (jsOrQ s.longitude s.lng) = true)
    (hk : k = encodeGeohash ((jsOrQ s.latitude s.lat).getD 0)
      ((jsOrQ s.longitude s.lng).getD 0) 7) :
    recvAt (aggStep now cov s) k = recvAt cov k +
      (if s.pingSuccess = some true ∨ (truthyStr s.nodeId = true ∧ s.nodeId ≠ some "Unknown")
       then 1 else 0) ∧
    lostAt (aggStep now cov s) k = lostAt cov k +
      (if ¬(s.pingSuccess = some true ∨ (truthyStr s.nodeId = true ∧ s.nodeId ≠ some "Unknown")) ∧
          (s.pingSuccess = some false ∨ s.nodeId = some "Unknown")
       then 1 else 0) ∧
    samplesAt (aggStep now cov s) k = samplesAt cov k + 1 := by
  subst hk
  rw [aggStep_eq_of_truthy now cov s hla hlo]
  have hu := updateCell_fields now s
    ((alGet cov (encodeGeohash ((jsOrQ s.latitude s.lat).getD 0)
        ((jsOrQ s.longitude s.lng).getD 0) 7)).getD (initCell s now))
  have hsi : (if s.pingSuccess = some true ∨
        (truthyStr s.nodeId = true ∧ s.nodeId ≠ some "Unknown") then (1 : ℚ) else 0) =
      (if successOf s then 1 else 0) := by
    by_cases h : successOf s = true
    · rw [if_pos ((successOf_iff s).mp h), if_pos h]
    · rw [if_neg (fun hp => h ((successOf_iff s).mpr hp)), if_neg h]
  have hli : (if ¬(s.pingSuccess = some true ∨
          (truthyStr s.nodeId = true ∧ s.nodeId ≠ some "Unknown")) ∧
        (s.pingSuccess = some false ∨ s.nodeId = some "Unknown") then (1 : ℚ) else 0) =
      (if !successOf s && failedOf s then 1 else 0) := by
    by_cases h : (!successOf s && failedOf s) = true
    · rw [Bool.and_eq_true, Bool.not_eq_true'] at h
      refine (if_pos ?_).trans (if_pos (by rw [Bool.and_eq_true, Bool.not_eq_true']; exact h)).symm
      exact ⟨fun hp => by rw [(successOf_iff s).mpr hp] at h; exact absurd h.1 (by simp),
        (failedOf_iff s).mp h.2⟩
    · rw [Bool.and_eq_true, Bool.not_eq_true'] at h
      push_neg at h
      refine (if_neg ?_).trans (if_neg (by rw [Bool.and_eq_true, Bool.not_eq_true']; push_neg; exact h)).symm
      rintro ⟨hns, hf⟩
      have hsf : successOf s = false := by
        cases hx : successOf s
        · rfl
        · exact absurd ((successOf_iff s).mp hx) hns
      exact absurd ((failedOf_iff s).mpr hf) (h hsf)
  rw [hsi, hli]
  refine ⟨?_, ?_, ?_⟩
  · rw [recvAt_alSet_self, hu.1, getD_received]
  · rw [lostAt_alSet_self, hu.2.1, getD_lost]
  · rw [samplesAt_alSet_self, hu.2.2, getD_samples]


theorem repAt_alSet_self (cov : CovMap) (k nid : String) (c : AggCell) :
    repAt (alSet cov k c) k nid = alGet c.repeaters nid := by
  simp [repAt, alGet_alSet_self]

theorem repAt_alSet_ne (cov : CovMap) (k k' nid : String) (c : AggCell) (h : k' ≠ k) :
    repAt (alSet cov k c) k' nid = repAt cov k' nid := by
  simp [repAt, alGet_alSet_ne _ _ _ _ h]

theorem repAt_some (cov : CovMap) (k nid : String) (r : Repeater)
    (h : repAt cov k nid = some r) :
    ∃ c, alGet cov k = some c ∧ alGet c.repeaters nid = some r := by
  unfold repAt at h
  cases hc : alGet cov k with
  | none => rw [hc] at h; exact absurd h (by simp)
  | some c => rw [hc] at h; exact ⟨c, rfl, h⟩

theorem aggStep_eq_or (now : ℤ) (cov : CovMap) (s : Sample) :
    aggStep now cov s = cov ∨
      (truthyQ (jsOrQ s.latitude s.lat) = true ∧ truthyQ (jsOrQ s.longitude s.lng) = true) := by
  by_cases h1 : truthyQ (jsOrQ s.latitude s.lat) = true
  · by_cases h2 : truthyQ (jsOrQ s.longitude s.lng) = true
    · exact Or.inr ⟨h1, h2⟩
    · left
      simp [aggStep, Bool.eq_false_iff.mpr h2]
  · left
    simp [aggStep, Bool.eq_false_iff.mpr h1]

/-- Claim C7: within one aggregation pass, a stored per-source record is
preserved whenever the incoming probe for that bucket is not strictly newer
than the stored `lastSeen` (so an out-of-order older probe never regresses
the stored data), is never touched by a probe for a different source, and is
overwritten with the fresh record exactly when a probe for the same source
carries a strictly later timestamp. -/
theorem c7_source_newer_wins (now : ℤ) (cov : CovMap) (s : Sample) (k nid : String)
    (r : Repeater) :
    (repAt cov k nid = some r → sampleTime s now ≤ r.lastSeen →
      repAt (aggStep now cov s) k nid = some r) ∧
    (s.nodeId ≠ some nid → repAt cov k nid = some r →
      repAt (aggStep now cov s) k nid = some r) ∧
    (truthyQ (jsOrQ s.latitude s.lat) = true → truthyQ (jsOrQ s.longitude s.lng) = true →
      k = encodeGeohash ((jsOrQ s.latitude s.lat).getD 0)
        ((jsOrQ s.longitude s.lng).getD 0) 7 →
      s.nodeId = some nid → nid ≠ "" → nid ≠ "Unknown" →
      repAt cov k nid = some r → r.lastSeen < sampleTime s now →
      repAt (aggStep now cov s) k nid = some (newRepeater s now nid)) := by
  refine ⟨?_, ?_, ?_⟩
  · intro hrep hle
    rcases aggStep_eq_or now cov s with h | ⟨h1, h2⟩
    · rw [h]; exact hrep
    · rw [aggStep_eq_of_truthy now cov s h1 h2]
      by_cases hkK : k = encodeGeohash ((jsOrQ s.latitude s.lat).getD 0)
          ((jsOrQ s.longitude s.lng).getD 0) 7
      · subst hkK
        obtain ⟨c, hc, hcr⟩ := repAt_some cov _ nid r hrep
        rw [repAt_alSet_self]
        simp only [hc, Option.getD_some]
        exact updateCell_rep_preserve now s c nid r hcr hle
      · rw [repAt_alSet_ne _ _ _ _ _ hkK]
        exact hrep
  · intro hnid hrep
    rcases aggStep_eq_or now cov s with h | ⟨h1, h2⟩
    · rw [h]; exact hrep
    · rw [aggStep_eq_of_truthy now cov s h1 h2]
      by_cases hkK : k = encodeGeohash ((jsOrQ s.latitude s.lat).getD 0)
          ((jsOrQ s.longitude s.lng).getD 0) 7
      · subst hkK
        obtain ⟨c, hc, hcr⟩ := repAt_some cov _ nid r hrep
        rw [repAt_alSet_self]
        simp only [hc, Option.getD_some]
        rw [updateCell_rep_other now s c nid hnid]
        exact hcr
      · rw [repAt_alSet_ne _ _ _ _ _ hkK]
        exact hrep
  · intro h1 h2 hk hnode hne hunk hrep hlt
    subst hk
    rw [aggStep_eq_of_truthy now cov s h1 h2]
    obtain ⟨c, hc, hcr⟩ := repAt_some cov _ nid r hrep
    rw [repAt_alSet_self]
    simp only [hc, Option.getD_some]
    exact updateCell_rep_overwrite now s c nid r hnode hne hunk hcr hlt

/-- Claim C8: a probe whose effective latitude or effective longitude
(after the `latitude || lat` alias fallback) is absent, null or numerically
zero contributes nothing to any cell: the aggregation step returns the
coverage map unchanged.  In particular a probe lying exactly on the equator
or the prime meridian is silently dropped even though its coordinates are
present. -/
theorem c8_falsy_coordinate_drop (now : ℤ) (cov : CovMap) (s : Sample)
    (h : truthyQ (jsOrQ s.latitude s.lat) = false ∨
      truthyQ (jsOrQ s.longitude s.lng) = false) :
    aggStep now cov s = cov := by
  rcases h with h | h <;> simp [aggStep, h]


/-- A concrete successful probe at (1, 1) used by the C5 witness. -/
def c5Sample : Sample :=
  { latitude := some 1, lat := none, longitude := some 1, lng := none
    timestamp := some 1000, pingSuccess := some true, nodeId := none
    repeaterName := none, rssi := none, snr := none }

theorem c5_witness :
    recvAt (aggStep 0 [] c5Sample) (encodeGeohash 1 1 7) = 1 := by
  have h := (c5_success_failure_counting 0 [] c5Sample (encodeGeohash 1 1 7)
    (by simp [c5Sample, jsOrQ, truthyQ])
    (by simp [c5Sample, jsOrQ, truthyQ])
    (by norm_num [c5Sample, jsOrQ, truthyQ])).1
  rw [h]
  norm_num [recvAt, alGet, c5Sample]

/-- The per-source record stored before the C7 witness probes arrive. -/
def c7Stored : Repeater := { name := "A", rssi := some 7, snr := none, lastSeen := 5000 }

/-- A persisted coverage map holding one cell at (1, 1) with source A last
seen at time 5000. -/
def c7Cov : CovMap :=
  [(encodeGeohash 1 1 7,
    { received := 3, lost := 1, samples := 4, repeaters := [("A", c7Stored)]
      firstSeen := 0, lastUpdate := 5000 })]

/-- An out-of-order older probe for source A (timestamp 4000). -/
def c7Older : Sample :=
  { latitude := some 1, lat := none, longitude := some 1, lng := none
    timestamp := some 4000, pingSuccess := none, nodeId := some "A"
    repeaterName := none, rssi := some 2, snr := none }

/-- A strictly newer probe for source A (timestamp 6000). -/
def c7Newer : Sample :=
  { latitude := some 1, lat := none, longitude := some 1, lng := none
    timestamp := some 6000, pingSuccess := none, nodeId := some "A"
    repeaterName := none, rssi := some 9, snr := none }

theorem c7_witness :
    repAt (aggStep 0 c7Cov c7Older) (encodeGeohash 1 1 7) "A" = some c7Stored ∧
      repAt (aggStep 0 c7Cov c7Newer) (encodeGeohash 1 1 7) "A" =
        some (newRepeater c7Newer 0 "A") := by
  constructor
  · exact (c7_source_newer_wins 0 c7Cov c7Older (encodeGeohash 1 1 7) "A" c7Stored).1
      (by simp [repAt, alGet, c7Cov, c7Stored])
      (by simp [c7Older, c7Stored, sampleTime])
  · exact (c7_source_newer_wins 0 c7Cov c7Newer (encodeGeohash 1 1 7) "A" c7Stored).2.2
      (by simp [c7Newer, jsOrQ, truthyQ])
      (by simp [c7Newer, jsOrQ, truthyQ])
      (by norm_num [c7Newer, jsOrQ, truthyQ])
      (by simp [c7Newer])
      (by simp)
      (by simp)
      (by simp [repAt, alGet, c7Cov, c7Stored])
      (by simp [c7Newer, c7Stored, sampleTime])

/-- A probe sitting exactly on the equator: latitude present but zero. -/
def c8Sample : Sample :=
  { latitude := some 0, lat := none, longitude := some 5, lng := none
    timestamp := some 1000, pingSuccess := some true, nodeId := none
    repeaterName := none, rssi := none, snr := none }

theorem c8_witness :
    c8Sample.latitude = some 0 ∧
      truthyQ (jsOrQ c8Sample.latitude c8Sample.lat) = false ∧
      aggStep 0 [] c8Sample = [] := by
  refine ⟨rfl, by simp [c8Sample, jsOrQ, truthyQ], ?_⟩
  exact c8_falsy_coordinate_drop 0 [] c8Sample
    (Or.inl (by simp [c8Sample, jsOrQ, truthyQ]))

/-- Claim C2: under the seen-id-checking merge (COVERAGE_LOGIC.md
lines 139-158), merging the same batch twice leaves the persisted cell state
identical to merging it once, because the dedup keys are re-checked against
the freshly read persisted seen-id list at merge time (the hypothesis keeps
the combined id count inside the 150-entry retention window, the bound the
source truncates to); the single-coverage-key merge of samples.js
lines 229-243 is likewise idempotent on re-submission of the same batch. -/
theorem c2_merge_idempotent (c : DCell) (d : DDelta)
    (hcap : c.seenIds.length + d.ids.length ≤ 150) (ex : Option AggCell) (n : AggCell) :
    mergeCellDedup (mergeCellDedup c d) d = mergeCellDedup c d ∧
      mergeCellA (some (mergeCellA ex n)) n = mergeCellA ex n := by
  constructor
  · by_cases h0 : (d.ids.filter (fun i => !(c.seenIds.contains i))).length = 0
    · have h1 : mergeCellDedup c d = c := by
        unfold mergeCellDedup
        rw [if_pos h0]
      rw [h1, h1]
    · have hlenA : (d.ids.filter (fun i => !(c.seenIds.contains i))).length ≤ d.ids.length :=
        List.length_filter_le _ _
      set m := mergeCellDedup c d with hm
      have hseen : m.seenIds =
          (d.ids.filter (fun i => !(c.seenIds.contains i))) ++ c.seenIds := by
        rw [hm]
        unfold mergeCellDedup
        rw [if_neg h0]
        exact List.take_of_length_le (by
          rw [List.length_append]
          omega)
      have hfilter2 : d.ids.filter (fun i => !(m.seenIds.contains i)) = [] := by
        rw [List.filter_eq_nil_iff]
        intro i hi
        rw [hseen]
        by_cases hc : i ∈ c.seenIds
        · simp [List.contains, hc]
        · have hiA : i ∈ d.ids.filter (fun j => !(c.seenIds.contains j)) :=
            List.mem_filter.mpr ⟨hi, by simp [List.contains, hc]⟩
          simp [List.contains, hiA]
          tauto
      unfold mergeCellDedup
      rw [hfilter2]
      simp
  · cases ex with
    | none => simp [mergeCellA]
    | some e =>
      by_cases h : e.lastUpdate < n.lastUpdate <;> simp [mergeCellA, h]


/-- A fresh persisted cell for the C2 witness (nothing seen yet). -/
def c2Cell : DCell :=
  { received := 0, lost := 0, lastUpdate := none, repeaters := [], seenIds := [] }

/-- A one-probe batch delta with explicit dedup key `p1` for the C2 witness. -/
def c2Delta : DDelta :=
  { received := 1, lost := 0, lastUpdate := some 5, repeaters := [], ids := ["p1"] }

/-- A fresh aggregate cell for the single-key merge half of the C2 witness. -/
def c2AggNew : AggCell :=
  { received := 10, lost := 0, samples := 10, repeaters := []
    firstSeen := 2000, lastUpdate := 2000 }

theorem c2_witness :
    mergeCellDedup (mergeCellDedup c2Cell c2Delta) c2Delta = mergeCellDedup c2Cell c2Delta ∧
      mergeCellA (some (mergeCellA none c2AggNew)) c2AggNew = mergeCellA none c2AggNew :=
  c2_merge_idempotent c2Cell c2Delta (by simp [c2Cell, c2Delta]) none c2AggNew

/-- The persisted cell of the C1 failing input: 8 received / 1 lost. -/
def c1Old : AggCell :=
  { received := 8, lost := 1, samples := 9, repeaters := [], firstSeen := 0, lastUpdate := 1000 }

/-- The incoming batch delta of the C1 failing input: 10 received / 0 lost,
with a newer timestamp. -/
def c1New : AggCell :=
  { received := 10, lost := 0, samples := 10, repeaters := []
    firstSeen := 2000, lastUpdate := 2000 }

/-- An aged cell (100 days old at merge time) for the atomic-update variant. -/
def c1AgedB : BCell := { received := 10, lost := 0, lastUpdate := some 0, repeaters := [] }

/-- A batch delta of 5 received for the atomic-update variant. -/
def c1DeltaB : BCell :=
  { received := 5, lost := 0, lastUpdate := some 8640000000, repeaters := [] }

/-- Claim C1 (code divergence): on the failing input — persisted cell of 8
received / 1 lost, incoming delta of 10 received / 0 lost with a newer
timestamp — the active merge of samples.js lines 229-243 substitutes the
fresh delta for the cell, producing 10 received / 0 lost instead of the
decayed-accumulate 18 received / 1 lost that the claim (and the
merge-with-decay draft of COVERAGE_LOGIC.md lines 649-663, proved here to
produce exactly the claimed totals) requires; the atomic-update merge of
samples.js lines 537-549 accumulates but never applies the decay factor, as
the aged-cell evaluation shows. -/
theorem c1_merge_divergence :
    mergeCellA (some c1Old) c1New = c1New ∧
    (mergeCellA (some c1Old) c1New).received = 10 ∧
    (mergeCellA (some c1Old) c1New).lost = 0 ∧
    (mergeCellA (some c1Old) c1New).received ≠
      c1Old.received * decayFactorOfAge (ageInDays c1New.lastUpdate c1Old.lastUpdate) +
        c1New.received ∧
    mergeCountsDecay c1New.lastUpdate c1Old c1New =
      (c1Old.received * decayFactorOfAge (ageInDays c1New.lastUpdate c1Old.lastUpdate) +
        c1New.received,
       c1Old.lost * decayFactorOfAge (ageInDays c1New.lastUpdate c1Old.lastUpdate) +
        c1New.lost) ∧
    mergeCountsDecay c1New.lastUpdate c1Old c1New = (18, 1) ∧
    (mergeCellAtomic (some c1AgedB) c1DeltaB).received = 15 ∧
    decayFactorOfAge (ageInDays 8640000000 0) = 0.2 ∧
    (mergeCellAtomic (some c1AgedB) c1DeltaB).received ≠
      c1AgedB.received * decayFactorOfAge (ageInDays 8640000000 0) + c1DeltaB.received := by
  have hage : ageInDays 2000 1000 = 0 := by decide
  have hage2 : decayFactorOfAge (ageInDays 8640000000 0) = 0.2 := by rfl
  refine ⟨?_, ?_, ?_, ?_, ?_, ?_, ?_, hage2, ?_⟩
  · norm_num [mergeCellA, c1Old, c1New]
  · norm_num [mergeCellA, c1Old, c1New]
  · norm_num [mergeCellA, c1Old, c1New]
  · norm_num [mergeCellA, c1Old, c1New, hage, decayFactorOfAge]
  · norm_num [mergeCountsDecay, applyDecay, c1Old, c1New]
  · norm_num [mergeCountsDecay, applyDecay, c1Old, c1New, hage, decayFactorOfAge]
  · norm_num [mergeCellAtomic, c1AgedB, c1DeltaB]
  · norm_num [mergeCellAtomic, c1AgedB, c1DeltaB, hage2]

end Meshwar
